import Mathlib

/-!
# Amazon MQ user resource (`internal/service/mq/user.go`)

A shallow embedding of the `aws_mq_user` resource: the framework value types it
stores, the remote client it talks to (as an explicit state machine with a call
log), the finder `findUserByID`, the five lifecycle methods of `resourceUser`,
and the translator / change detector helpers.

Go strings are Lean `String`s, Go pointers (`*string`, `*bool`, `*Output`) are
`Option`s with `none` for `nil`, and a Go slice is an `Option (List String)` with
`none` for the `nil` slice.
-/

namespace MQ

/-! ## Framework value types (`terraform-plugin-framework/types`) -/

/-- The framework `types.String`: null, unknown, or a known Go string. -/
inductive TfString where
  | null
  | unknown
  | known (v : String)
deriving DecidableEq, Repr

/-- The framework `types.Bool`: null, unknown, or a known Go bool. -/
inductive TfBool where
  | null
  | unknown
  | known (v : Bool)
deriving DecidableEq, Repr

/-- The framework `types.List` with element type `types.StringType` (the only
element type the schema of this resource declares): null, unknown, or a known
list of string values. -/
inductive TfList where
  | null
  | unknown
  | known (elems : List TfString)
deriving DecidableEq, Repr

/-- The method `types.String.ValueString`: the known value, or the empty string
for null and unknown. -/
def TfString.ValueString : TfString → String
  | .known v => v
  | _ => ""

/-- The method `types.String.Equal`: same value state and, when known, same value. -/
def TfString.Equal : TfString → TfString → Bool
  | .null, .null => true
  | .unknown, .unknown => true
  | .known a, .known b => a == b
  | _, _ => false

/-- The method `types.Bool.Equal`: same value state and, when known, same value. -/
def TfBool.Equal : TfBool → TfBool → Bool
  | .null, .null => true
  | .unknown, .unknown => true
  | .known a, .known b => a == b
  | _, _ => false

/-- Pairwise comparison of the elements of two known lists, in order. -/
def elemsEqual : List TfString → List TfString → Bool
  | [], [] => true
  | a :: as, b :: bs => a.Equal b && elemsEqual as bs
  | _, _ => false

/-- The method `types.List.Equal`: same value state and, when known, the same
number of elements, pairwise `Equal` in order. -/
def TfList.Equal : TfList → TfList → Bool
  | .null, .null => true
  | .unknown, .unknown => true
  | .known a, .known b => elemsEqual a b
  | _, _ => false

/-! ## The resource model -/

/-- The struct `resourceUserData`. -/
structure resourceUserData where
  BrokerID : TfString
  ConsoleAccess : TfBool
  Groups : TfList
  ID : TfString
  Password : TfString
  ReplicationUser : TfBool
  Username : TfString
deriving DecidableEq, Repr

/-! ## AWS SDK request and response shapes (`aws-sdk-go-v2/service/mq`) -/

/-- The struct `mq.CreateUserInput`. -/
structure CreateUserInput where
  BrokerId : Option String
  Password : Option String
  Username : Option String
  ConsoleAccess : Option Bool
  Groups : Option (List String)
  ReplicationUser : Option Bool
deriving DecidableEq, Repr

/-- The struct `mq.UpdateUserInput`. -/
structure UpdateUserInput where
  BrokerId : Option String
  Password : Option String
  Username : Option String
  ConsoleAccess : Option Bool
  Groups : Option (List String)
  ReplicationUser : Option Bool
deriving DecidableEq, Repr

/-- The struct `mq.DeleteUserInput`. -/
structure DeleteUserInput where
  BrokerId : Option String
  Username : Option String
deriving DecidableEq, Repr

/-- The struct `mq.DescribeUserInput`. -/
structure DescribeUserInput where
  BrokerId : Option String
  Username : Option String
deriving DecidableEq, Repr

/-- The fields of `mq.DescribeUserOutput` that the resource reads. -/
structure DescribeUserOutput where
  BrokerId : Option String
  ConsoleAccess : Option Bool
  Groups : Option (List String)
  ReplicationUser : Option Bool
  Username : Option String
deriving DecidableEq, Repr

/-! ## Errors -/

/-- An error value returned by the AWS SDK client: the typed
`*awstypes.NotFoundException`, any other API or transport error, or an error
wrapping another one (as `smithy.OperationError` does). -/
inductive RemoteError where
  | notFoundException (message : String)
  | other (code : String) (message : String)
  | wrap (operation : String) (inner : RemoteError)
deriving DecidableEq, Repr

/-- The check `errs.IsA[*awstypes.NotFoundException]`, that is `errors.As` along
the unwrap chain of the error. -/
def RemoteError.isNotFoundException : RemoteError → Bool
  | .notFoundException _ => true
  | .other _ _ => false
  | .wrap _ inner => inner.isNotFoundException

/-- The check `errs.IsA[*awstypes.NotFoundException](err)` on a possibly nil error. -/
def errsIsANotFoundException : Option RemoteError → Bool
  | none => false
  | some e => e.isNotFoundException

/-- The error values `findUserByID` can return: a `*retry.NotFoundError` (with
its `Message`, `LastError` and `LastRequest` fields), the value built by
`tfresource.NewEmptyResultError`, or a remote error passed through unchanged. -/
inductive GoError where
  | retryNotFoundError (Message : String) (LastError : Option RemoteError)
      (LastRequest : Option DescribeUserInput)
  | emptyResultError (LastRequest : DescribeUserInput)
  | remote (err : RemoteError)
deriving DecidableEq, Repr

/-- Whether the dynamic type of the error is `*retry.NotFoundError`. -/
def GoError.isRetryNotFoundError : GoError → Bool
  | .retryNotFoundError _ _ _ => true
  | _ => false

/-- Modelled from the spec: `tfresource.NotFound` (package `internal/tfresource`
is not among the sources) reports whether an error is the finder's NotFound
classification. It is true of a `*retry.NotFoundError` and of the empty-result
error, which stands for a read that answered with no object, and false of a
remote error passed through unchanged and of the nil error. -/
def tfresourceNotFound : Option GoError → Bool
  | some (.retryNotFoundError _ _ _) => true
  | some (.emptyResultError _) => true
  | _ => false

/-! ## Diagnostics -/

/-- The action labels of package `create` used by this resource. -/
inductive ErrAction where
  | creating
  | reading
  | updating
  | deleting
deriving DecidableEq, Repr

/-- A framework diagnostic. `addError` is `Diagnostics.AddError summary detail`;
`diagErrorFramework` is the value of `create.DiagErrorFramework`, kept as the
structured record of its arguments (action, resource name, resource key and the
underlying error; the service is always `names.MQ`); `warning` is a diagnostic of
warning severity, which only a caller can have put in a response. -/
inductive Diagnostic where
  | addError (summary detail : String)
  | diagErrorFramework (action : ErrAction) (resourceName : String) (id : String)
      (err : GoError)
  | warning (summary detail : String)
deriving DecidableEq, Repr

/-- Whether a diagnostic has error severity. -/
def Diagnostic.isError : Diagnostic → Bool
  | .warning _ _ => false
  | _ => true

/-- The framework `diag.Diagnostics`. -/
abbrev Diagnostics := List Diagnostic

/-- The method `Diagnostics.HasError`. -/
def HasError (ds : Diagnostics) : Bool := ds.any Diagnostic.isError

/-- The constant `ResourceNameUser`. -/
def ResourceNameUser : String := "User"

/-- The call `fmt.Sprintf("%s/%s", a, b)`. -/
def sprintfSlash (a b : String) : String := a ++ "/" ++ b

/-! ## `strings.Split` on the separator `/` -/

/-- The pieces of a character sequence between occurrences of `sep`; a sequence
without `sep` is its own single piece. -/
def splitChars (sep : Char) : List Char → List (List Char)
  | [] => [[]]
  | c :: cs =>
    if c = sep then [] :: splitChars sep cs
    else
      match splitChars sep cs with
      | [] => [[c]]
      | p :: ps => (c :: p) :: ps

/-- The call `strings.Split(s, "/")`. -/
def stringsSplitSlash (s : String) : List String :=
  (splitChars '/' s.data).map String.mk

/-- The number of `/` characters in a string. -/
def slashCount (s : String) : Nat := s.data.count '/'

/-! ## The remote client -/

/-- One call on the remote `*mq.Client`, with the request that was sent. -/
inductive Call where
  | CreateUser (input : CreateUserInput)
  | DescribeUser (input : DescribeUserInput)
  | UpdateUser (input : UpdateUserInput)
  | DeleteUser (input : DeleteUserInput)
deriving DecidableEq, Repr

/-- The behaviour of the remote service behind `*mq.Client`, over a service state
`σ`: each operation maps the state and a request to an answer and a next state.
`CreateUser`, `UpdateUser` and `DeleteUser` answer with an error or nil (the
resource discards their outputs); `DescribeUser` answers with an output pointer
and an error. -/
structure Client (σ : Type) where
  CreateUser : σ → CreateUserInput → Option RemoteError × σ
  DescribeUser : σ → DescribeUserInput → (Option DescribeUserOutput × Option RemoteError) × σ
  UpdateUser : σ → UpdateUserInput → Option RemoteError × σ
  DeleteUser : σ → DeleteUserInput → Option RemoteError × σ

/-- The connection as the resource sees it: the current service state and the
log of every remote call issued so far, oldest first. -/
structure Conn (σ : Type) where
  st : σ
  calls : List Call
deriving DecidableEq, Repr

/-- The call `conn.CreateUser(ctx, input)`. -/
def connCreateUser {σ : Type} (c : Client σ) (w : Conn σ) (input : CreateUserInput) :
    Option RemoteError × Conn σ :=
  let r := c.CreateUser w.st input
  (r.1, { st := r.2, calls := w.calls ++ [Call.CreateUser input] })

/-- The call `conn.DescribeUser(ctx, input)`. -/
def connDescribeUser {σ : Type} (c : Client σ) (w : Conn σ) (input : DescribeUserInput) :
    (Option DescribeUserOutput × Option RemoteError) × Conn σ :=
  let r := c.DescribeUser w.st input
  (r.1, { st := r.2, calls := w.calls ++ [Call.DescribeUser input] })

/-- The call `conn.UpdateUser(ctx, input)`. -/
def connUpdateUser {σ : Type} (c : Client σ) (w : Conn σ) (input : UpdateUserInput) :
    Option RemoteError × Conn σ :=
  let r := c.UpdateUser w.st input
  (r.1, { st := r.2, calls := w.calls ++ [Call.UpdateUser input] })

/-- The call `conn.DeleteUser(ctx, input)`. -/
def connDeleteUser {σ : Type} (c : Client σ) (w : Conn σ) (input : DeleteUserInput) :
    Option RemoteError × Conn σ :=
  let r := c.DeleteUser w.st input
  (r.1, { st := r.2, calls := w.calls ++ [Call.DeleteUser input] })

/-! ## The conversion helpers of package `flex` -/

/-- Modelled from the spec: package `internal/framework/flex` is not among the
sources, so its six conversions used by this resource are kept as parameters.
The spec describes them as the pure, total field-by-field projections of the
translator between framework values and request or response fields. -/
structure Flex where
  StringFromFramework : TfString → Option String
  BoolFromFramework : TfBool → Option Bool
  ExpandFrameworkStringValueList : TfList → Option (List String)
  StringToFramework : Option String → TfString
  BoolToFramework : Option Bool → TfBool
  FlattenFrameworkStringValueList : Option (List String) → TfList

/-- The known values of a list of framework strings, or `none` when an element
is null or unknown. -/
def knownValues : List TfString → Option (List String)
  | [] => some []
  | .known v :: rest => (knownValues rest).map (fun vs => v :: vs)
  | _ :: _ => none

/-- A sample instance of the conversions: null and unknown become nil, a known
value becomes a pointer to it, and back. -/
def sampleFlex : Flex where
  StringFromFramework := fun v => match v with
    | .known s => some s
    | _ => none
  BoolFromFramework := fun v => match v with
    | .known b => some b
    | _ => none
  ExpandFrameworkStringValueList := fun l => match l with
    | .known elems => knownValues elems
    | _ => none
  StringToFramework := fun p => match p with
    | some s => .known s
    | none => .null
  BoolToFramework := fun p => match p with
    | some b => .known b
    | none => .null
  FlattenFrameworkStringValueList := fun vs => match vs with
    | some l => .known (l.map TfString.known)
    | none => .null

/-! ## The finder -/

/-- The function `findUserByID`. The result pair is the Go pair
`(*mq.DescribeUserOutput, error)`. -/
def findUserByID {σ : Type} (c : Client σ) (w : Conn σ) (brokerID : String) (id : String) :
    (Option DescribeUserOutput × Option GoError) × Conn σ :=
  if brokerID = "" then
    ((none, some (.retryNotFoundError "cannot find User with an empty broker ID." none none)), w)
  else if id = "" then
    ((none, some (.retryNotFoundError "cannot find User with an empty username." none none)), w)
  else
    let input : DescribeUserInput := { BrokerId := some brokerID, Username := some id }
    let r := connDescribeUser c w input
    let output := r.1.1
    let err := r.1.2
    if errsIsANotFoundException err then
      ((none, some (.retryNotFoundError "" err (some input))), r.2)
    else
      match err with
      | some e => ((none, some (.remote e)), r.2)
      | none =>
        match output with
        | none => ((none, some (.emptyResultError input)), r.2)
        | some out => ((some out, none), r.2)

/-! ## Translator and change detector -/

/-- The method `resourceUserData.refreshFromOutput`. -/
def resourceUserData.refreshFromOutput (fx : Flex) (rd : resourceUserData)
    (out : Option DescribeUserOutput) : resourceUserData :=
  match out with
  | none => rd
  | some out =>
    let rd := { rd with BrokerID := fx.StringToFramework out.BrokerId }
    let rd := { rd with ConsoleAccess := fx.BoolToFramework out.ConsoleAccess }
    let rd := { rd with Groups := fx.FlattenFrameworkStringValueList out.Groups }
    let rd := { rd with ReplicationUser := fx.BoolToFramework out.ReplicationUser }
    let rd := { rd with Username := fx.StringToFramework out.Username }
    { rd with ID := rd.Username }

/-- The function `userHasChanges`. -/
def userHasChanges (plan state : resourceUserData) : Bool :=
  !plan.ConsoleAccess.Equal state.ConsoleAccess ||
    !plan.Groups.Equal state.Groups ||
    !plan.Password.Equal state.Password ||
    !plan.ReplicationUser.Equal state.ReplicationUser

/-- The request built in `Create` from the plan. -/
def createUserInput (fx : Flex) (plan : resourceUserData) : CreateUserInput :=
  { BrokerId := fx.StringFromFramework plan.BrokerID
    Password := fx.StringFromFramework plan.Password
    Username := fx.StringFromFramework plan.Username
    ConsoleAccess := fx.BoolFromFramework plan.ConsoleAccess
    Groups := fx.ExpandFrameworkStringValueList plan.Groups
    ReplicationUser := fx.BoolFromFramework plan.ReplicationUser }

/-- The request built in `Update` from the plan. -/
def updateUserInput (fx : Flex) (plan : resourceUserData) : UpdateUserInput :=
  { BrokerId := fx.StringFromFramework plan.BrokerID
    Password := fx.StringFromFramework plan.Password
    Username := fx.StringFromFramework plan.ID
    ConsoleAccess := fx.BoolFromFramework plan.ConsoleAccess
    Groups := fx.ExpandFrameworkStringValueList plan.Groups
    ReplicationUser := fx.BoolFromFramework plan.ReplicationUser }

/-- The request built in `Delete` from the state. -/
def deleteUserInput (fx : Flex) (state : resourceUserData) : DeleteUserInput :=
  { BrokerId := fx.StringFromFramework state.BrokerID
    Username := fx.StringFromFramework state.ID }

/-! ## The state store (`tfsdk.State`, `tfsdk.Plan`) -/

/-- The framework `tfsdk.State` of one resource: the stored object, or `none` when
the resource is absent from the state. -/
abbrev State := Option resourceUserData

/-- The methods `request.State.Get` and `request.Plan.Get`: decoding an object
that conforms to the schema into `resourceUserData`, whose framework-typed fields
accept null and unknown values, yields the object and no diagnostics. -/
def tfsdkGet (v : resourceUserData) : Diagnostics × resourceUserData := ([], v)

/-- The method `response.State.Set`: storing a `resourceUserData` replaces the
whole stored object and yields no diagnostics. -/
def tfsdkSet (_st : State) (v : resourceUserData) : Diagnostics × State := ([], some v)

/-- The method `response.State.RemoveResource`. -/
def tfsdkRemoveResource (_st : State) : State := none

/-- The string-typed root attributes of the schema, as `path.Root` paths. -/
inductive RootPath where
  | broker_id
  | id
  | password
  | username
deriving DecidableEq, Repr

/-- The object with every attribute null. -/
def nullUserData : resourceUserData :=
  { BrokerID := .null, ConsoleAccess := .null, Groups := .null, ID := .null,
    Password := .null, ReplicationUser := .null, Username := .null }

/-- The method `response.State.SetAttribute` with a Go string value: the
attribute at the path becomes the known string (in the all-null object when
nothing is stored yet); no diagnostics. -/
def tfsdkSetAttribute (st : State) (p : RootPath) (v : String) : Diagnostics × State :=
  let d := st.getD nullUserData
  match p with
  | .broker_id => ([], some { d with BrokerID := .known v })
  | .id => ([], some { d with ID := .known v })
  | .password => ([], some { d with Password := .known v })
  | .username => ([], some { d with Username := .known v })

/-- A response of a lifecycle method: the state handed back to the framework and
the diagnostics (`resource.CreateResponse`, `ReadResponse`, `UpdateResponse`,
`DeleteResponse` and `ImportStateResponse` share these two fields). -/
structure Response where
  State : MQ.State
  Diagnostics : MQ.Diagnostics
deriving DecidableEq, Repr

/-- Appending diagnostics to a response (`response.Diagnostics.Append`). -/
def Response.Append (response : Response) (ds : MQ.Diagnostics) : Response :=
  { response with Diagnostics := response.Diagnostics ++ ds }

/-! ## The lifecycle methods of `resourceUser` -/

/-- The method `resourceUser.Create`; `plan` is `request.Plan`. -/
def resourceUser.Create {σ : Type} (fx : Flex) (c : Client σ) (w : Conn σ)
    (requestPlan : resourceUserData) (response : Response) : Response × Conn σ :=
  let g := tfsdkGet requestPlan
  let plan := g.2
  let response := response.Append g.1
  if HasError response.Diagnostics then (response, w)
  else
    let input := createUserInput fx plan
    let r := connCreateUser c w input
    match r.1 with
    | some e =>
      (response.Append [.diagErrorFramework .creating ResourceNameUser
        (sprintfSlash plan.BrokerID.ValueString plan.Username.ValueString) (.remote e)], r.2)
    | none =>
      let f := findUserByID c r.2 plan.BrokerID.ValueString plan.Username.ValueString
      match f.1.2 with
      | some e =>
        (response.Append [.diagErrorFramework .creating ResourceNameUser
          (sprintfSlash plan.BrokerID.ValueString plan.Username.ValueString) e], f.2)
      | none =>
        let state := plan.refreshFromOutput fx f.1.1
        let s := tfsdkSet response.State state
        (({ response with State := s.2 } : Response).Append s.1, f.2)

/-- The method `resourceUser.Read`; `requestState` is `request.State`. -/
def resourceUser.Read {σ : Type} (fx : Flex) (c : Client σ) (w : Conn σ)
    (requestState : resourceUserData) (response : Response) : Response × Conn σ :=
  let g := tfsdkGet requestState
  let state := g.2
  let response := response.Append g.1
  if HasError response.Diagnostics then (response, w)
  else
    let f := findUserByID c w state.BrokerID.ValueString state.ID.ValueString
    if tfresourceNotFound f.1.2 then
      ({ response with State := tfsdkRemoveResource response.State }, f.2)
    else
      match f.1.2 with
      | some e =>
        (response.Append [.diagErrorFramework .reading ResourceNameUser
          (sprintfSlash state.BrokerID.ValueString state.ID.ValueString) e], f.2)
      | none =>
        let state := state.refreshFromOutput fx f.1.1
        let s := tfsdkSet response.State state
        (({ response with State := s.2 } : Response).Append s.1, f.2)

/-- The method `resourceUser.Update`. -/
def resourceUser.Update {σ : Type} (fx : Flex) (c : Client σ) (w : Conn σ)
    (requestState requestPlan : resourceUserData) (response : Response) : Response × Conn σ :=
  let g := tfsdkGet requestState
  let state := g.2
  let response := response.Append g.1
  if HasError response.Diagnostics then (response, w)
  else
    let g := tfsdkGet requestPlan
    let plan := g.2
    let response := response.Append g.1
    if HasError response.Diagnostics then (response, w)
    else if userHasChanges plan state then
      let input := updateUserInput fx plan
      let r := connUpdateUser c w input
      match r.1 with
      | some e =>
        (response.Append [.diagErrorFramework .updating ResourceNameUser
          (sprintfSlash state.BrokerID.ValueString state.ID.ValueString) (.remote e)], r.2)
      | none =>
        let s := tfsdkSet response.State plan
        (({ response with State := s.2 } : Response).Append s.1, r.2)
    else
      let s := tfsdkSet response.State plan
      (({ response with State := s.2 } : Response).Append s.1, w)

/-- The method `resourceUser.Delete`. -/
def resourceUser.Delete {σ : Type} (fx : Flex) (c : Client σ) (w : Conn σ)
    (requestState : resourceUserData) (response : Response) : Response × Conn σ :=
  let g := tfsdkGet requestState
  let state := g.2
  let response := response.Append g.1
  if HasError response.Diagnostics then (response, w)
  else
    let input := deleteUserInput fx state
    let r := connDeleteUser c w input
    match r.1 with
    | some e =>
      (response.Append [.diagErrorFramework .deleting ResourceNameUser
        (sprintfSlash state.BrokerID.ValueString state.ID.ValueString) (.remote e)], r.2)
    | none => (response, r.2)

/-- The detail text of the import format error. -/
def importDetail (id : String) : String :=
  "wrong format of import ID (" ++ id ++ "), use: broker-id/username\x27"

/-- The diagnostic `ImportState` adds for a malformed import ID. -/
def invalidImportID (id : String) : Diagnostic :=
  .addError "Resource Import Invalid ID" (importDetail id)

/-- The method `resourceUser.ImportState`; `requestID` is `request.ID`. The
connection is threaded through so that the absence of remote calls is visible. -/
def resourceUser.ImportState {σ : Type} (w : Conn σ) (requestID : String)
    (response : Response) : Response × Conn σ :=
  let parts := stringsSplitSlash requestID
  if parts.length ≠ 2 then
    (response.Append [invalidImportID requestID], w)
  else
    let brokerID := parts.getD 0 ""
    let username := parts.getD 1 ""
    let s := tfsdkSetAttribute response.State .id username
    let response := ({ response with State := s.2 } : Response).Append s.1
    let s := tfsdkSetAttribute response.State .broker_id brokerID
    let response := ({ response with State := s.2 } : Response).Append s.1
    (response, w)

/-! ## Remote stubs -/

/-- A remote stub whose reads report `NotFoundException` for the first `n` calls
and the output `out` from call `n + 1` on; the service state counts the reads
answered so far. Create, update and delete succeed. -/
def stabilizingClient (n : Nat) (out : DescribeUserOutput) : Client Nat where
  CreateUser := fun s _ => (none, s)
  DescribeUser := fun s _ =>
    if s < n then ((none, some (RemoteError.notFoundException "user not found")), s + 1)
    else ((some out, none), s + 1)
  UpdateUser := fun s _ => (none, s)
  DeleteUser := fun s _ => (none, s)

/-- A remote stub holding at most one user; the service state tells whether the
user is present. Reading, updating or deleting an absent user answers with
`NotFoundException`; deleting a present user removes it. -/
def singleUserClient (out : DescribeUserOutput) : Client Bool where
  CreateUser := fun _ _ => (none, true)
  DescribeUser := fun s _ =>
    if s then ((some out, none), s)
    else ((none, some (RemoteError.notFoundException "user not found")), s)
  UpdateUser := fun s _ =>
    if s then (none, s) else (some (RemoteError.notFoundException "user not found"), s)
  DeleteUser := fun s _ =>
    if s then (none, false) else (some (RemoteError.notFoundException "user not found"), false)

/-- A sample output of the remote read. -/
def sampleOutput : DescribeUserOutput :=
  { BrokerId := some "b-1234", ConsoleAccess := some false, Groups := none,
    ReplicationUser := some false, Username := some "testuser" }

/-- A sample plan or state matching `sampleOutput`. -/
def sampleData : resourceUserData :=
  { BrokerID := .known "b-1234", ConsoleAccess := .known false, Groups := .null,
    ID := .known "testuser", Password := .known "v98jxV3U0288",
    ReplicationUser := .known false, Username := .known "testuser" }

/-- The remote read answer that echoes the fields of a create request. -/
def echoOutput (input : CreateUserInput) : DescribeUserOutput :=
  { BrokerId := input.BrokerId, ConsoleAccess := input.ConsoleAccess, Groups := input.Groups,
    ReplicationUser := input.ReplicationUser, Username := input.Username }

/-- Whether a framework string is known. -/
def TfString.isKnown : TfString → Bool
  | .known _ => true
  | _ => false

/-- Whether a framework bool is known. -/
def TfBool.isKnown : TfBool → Bool
  | .known _ => true
  | _ => false

/-- Whether a framework list is known together with all its elements. -/
def TfList.isKnown : TfList → Bool
  | .known elems => elems.all TfString.isKnown
  | _ => false

/-- Modelled from the spec: the translator must round-trip, so the conversions
of package `flex` (not among the sources) are taken to round-trip on known
values: converting a known framework value to a request field and that field
back gives the value again. -/
def Flex.RoundTrips (fx : Flex) : Prop :=
  (∀ v : TfString, v.isKnown = true →
    fx.StringToFramework (fx.StringFromFramework v) = v) ∧
  (∀ v : TfBool, v.isKnown = true →
    fx.BoolToFramework (fx.BoolFromFramework v) = v) ∧
  (∀ v : TfList, v.isKnown = true →
    fx.FlattenFrameworkStringValueList (fx.ExpandFrameworkStringValueList v) = v)

/-- A plan that differs from `sampleData` in the immutable `broker_id` only. -/
def movedBrokerPlan : resourceUserData :=
  { sampleData with BrokerID := .known "b-9999" }

/-- A plan that differs from `sampleData` in the immutable `broker_id` and in the
password. -/
def movedBrokerNewPasswordPlan : resourceUserData :=
  { sampleData with BrokerID := .known "b-9999", Password := .known "n3wPassw0rd!x" }

/-- A plan as the test configuration gives it, with a group list. -/
def samplePlan : resourceUserData :=
  { BrokerID := .known "b-1234", ConsoleAccess := .known true,
    Groups := .known [.known "admins", .known "ops"], ID := .unknown,
    Password := .known "v98jxV3U0288", ReplicationUser := .known false,
    Username := .known "testuser" }

/-! ## Facts about `strings.Split` -/

theorem splitChars_ne_nil (sep : Char) (l : List Char) : splitChars sep l ≠ [] := by
  induction l with
  | nil => simp [splitChars]
  | cons c cs ih =>
    unfold splitChars
    split
    · simp
    · split <;> simp

theorem splitChars_length (sep : Char) (l : List Char) :
    (splitChars sep l).length = l.count sep + 1 := by
  induction l with
  | nil => simp [splitChars]
  | cons c cs ih =>
    unfold splitChars
    by_cases h : c = sep
    · subst h
      simp [ih]
    · have hc : (c == sep) = false := by simpa using h
      rw [if_neg h, List.count_cons, hc]
      cases hs : splitChars sep cs with
      | nil => exact absurd hs (splitChars_ne_nil sep cs)
      | cons p ps =>
        rw [hs] at ih
        simpa using ih

theorem splitChars_of_not_mem (sep : Char) (l : List Char) (h : sep ∉ l) :
    splitChars sep l = [l] := by
  induction l with
  | nil => rfl
  | cons c cs ih =>
    have hc : c ≠ sep := fun e => h (by simp [e])
    have hcs : sep ∉ cs := fun e => h (List.mem_cons_of_mem _ e)
    unfold splitChars
    rw [if_neg hc, ih hcs]

theorem splitChars_append_sep (sep : Char) (l r : List Char) (h : sep ∉ l) :
    splitChars sep (l ++ sep :: r) = l :: splitChars sep r := by
  induction l with
  | nil => simp [splitChars]
  | cons c cs ih =>
    have hc : c ≠ sep := fun e => h (by simp [e])
    have hcs : sep ∉ cs := fun e => h (List.mem_cons_of_mem _ e)
    rw [List.cons_append, splitChars, if_neg hc, ih hcs]

theorem stringsSplitSlash_length (s : String) :
    (stringsSplitSlash s).length = slashCount s + 1 := by
  simp [stringsSplitSlash, slashCount, splitChars_length]

theorem stringsSplitSlash_sprintf (b u : String) (hb : '/' ∉ b.data) (hu : '/' ∉ u.data) :
    stringsSplitSlash (sprintfSlash b u) = [b, u] := by
  have hd : (sprintfSlash b u).data = b.data ++ '/' :: u.data := by
    simp [sprintfSlash, String.data_append]
  unfold stringsSplitSlash
  rw [hd, splitChars_append_sep _ _ _ hb, splitChars_of_not_mem _ _ hu]
  rfl

/-! ## Import -/

/-- C1: for every import ID `s` and every incoming response, `ImportState` adds
the "Resource Import Invalid ID" error exactly when `s` does not contain exactly
one `/`, which is exactly when splitting `s` on `/` does not give 2 parts; and
whenever it adds that error the state of the response is untouched (neither `id`
nor `broker_id` is set) and no remote call is issued. -/
theorem importState_invalid_iff {σ : Type} (w : Conn σ) (s : String) (response : Response) :
    ((resourceUser.ImportState w s response).1.Diagnostics
        = response.Diagnostics ++ [invalidImportID s] ↔ slashCount s ≠ 1) ∧
    (slashCount s ≠ 1 ↔ (stringsSplitSlash s).length ≠ 2) ∧
    ((resourceUser.ImportState w s response).1.Diagnostics
        = response.Diagnostics ++ [invalidImportID s] →
      (resourceUser.ImportState w s response).1.State = response.State ∧
      (resourceUser.ImportState w s response).2 = w) := by
  have hlen := stringsSplitSlash_length s
  have hiff : slashCount s ≠ 1 ↔ (stringsSplitSlash s).length ≠ 2 := by
    rw [hlen]; omega
  have hrep : (resourceUser.ImportState w s response).1.Diagnostics
      = response.Diagnostics ++ [invalidImportID s] ↔ slashCount s ≠ 1 := by
    rw [hiff]
    by_cases h : (stringsSplitSlash s).length ≠ 2
    · simp [resourceUser.ImportState, h, Response.Append]
    · simp [resourceUser.ImportState, h, Response.Append, tfsdkSetAttribute]
  refine ⟨hrep, hiff, fun hr => ?_⟩
  have h : (stringsSplitSlash s).length ≠ 2 := hiff.mp (hrep.mp hr)
  simp [resourceUser.ImportState, h, Response.Append]

/-- C2: for every broker ID `b` and username `u` without `/`, `ImportState` on
the string `b/u` built by the test adds no diagnostic, issues no remote call,
and leaves a state whose `broker_id` is exactly `b` and whose `id` is exactly
`u`, every other attribute being as it was (null when nothing was stored). -/
theorem importState_roundtrip {σ : Type} (w : Conn σ) (b u : String) (response : Response)
    (hb : '/' ∉ b.data) (hu : '/' ∉ u.data) :
    (resourceUser.ImportState w (sprintfSlash b u) response).1.Diagnostics
        = response.Diagnostics ∧
    (resourceUser.ImportState w (sprintfSlash b u) response).1.State
        = some { response.State.getD nullUserData with
                  BrokerID := TfString.known b, ID := TfString.known u } ∧
    (resourceUser.ImportState w (sprintfSlash b u) response).2 = w := by
  have hs := stringsSplitSlash_sprintf b u hb hu
  simp [resourceUser.ImportState, hs, Response.Append, tfsdkSetAttribute]

/-- The round trip of C2 at the broker ID and username of the acceptance test
configuration, starting from an empty response. -/
theorem importState_roundtrip_witness :
    ('/' ∉ "<WRITE_YOUR_BROKER_ID_HERE>".data ∧ '/' ∉ "testuser".data) ∧
    (resourceUser.ImportState (⟨0, []⟩ : Conn Nat)
        (sprintfSlash "<WRITE_YOUR_BROKER_ID_HERE>" "testuser") ⟨none, []⟩).1.State
      = some { nullUserData with
                BrokerID := TfString.known "<WRITE_YOUR_BROKER_ID_HERE>",
                ID := TfString.known "testuser" } :=
  ⟨⟨by decide, by decide⟩,
    (importState_roundtrip (⟨0, []⟩ : Conn Nat) "<WRITE_YOUR_BROKER_ID_HERE>" "testuser"
      ⟨none, []⟩ (by decide) (by decide)).2.1⟩

/-! ## The finder -/

/-- C3: whenever the broker ID or the user ID is the empty string, `findUserByID`
returns a nil output together with a `*retry.NotFoundError` (which
`tfresource.NotFound` recognises), and the connection is exactly as before: the
remote `DescribeUser` operation is not called. -/
theorem findUserByID_empty {σ : Type} (c : Client σ) (w : Conn σ) (brokerID id : String)
    (h : brokerID = "" ∨ id = "") :
    (findUserByID c w brokerID id).1.1 = none ∧
    (∃ e, (findUserByID c w brokerID id).1.2 = some e ∧ e.isRetryNotFoundError = true) ∧
    tfresourceNotFound (findUserByID c w brokerID id).1.2 = true ∧
    (findUserByID c w brokerID id).2 = w := by
  by_cases hb : brokerID = ""
  · simp [findUserByID, hb, GoError.isRetryNotFoundError, tfresourceNotFound]
  · have hi : id = "" := h.resolve_left hb
    simp [findUserByID, hb, hi, GoError.isRetryNotFoundError, tfresourceNotFound]

/-- The finder of C3 at an empty broker ID, against a stub that would have
answered Found. -/
theorem findUserByID_empty_witness :
    (("" : String) = "" ∨ ("testuser" : String) = "") ∧
    (findUserByID (singleUserClient sampleOutput) ⟨true, []⟩ "" "testuser").2.calls = [] :=
  ⟨by decide,
    congrArg Conn.calls
      (findUserByID_empty (singleUserClient sampleOutput) ⟨true, []⟩ "" "testuser"
        (by decide)).2.2.2⟩

/-- C4: for a non-empty broker ID and a non-empty user ID, `findUserByID` issues
exactly one `DescribeUser` call (with both IDs as the request) and classifies the
remote answer: a `NotFoundException` becomes a `*retry.NotFoundError` whose
`LastError` is that remote error; any other non-nil remote error is returned
unchanged and is not a `*retry.NotFoundError`; a nil error with a non-nil output
returns that output with a nil error; and an output is returned in no other
case. -/
theorem findUserByID_classifies {σ : Type} (c : Client σ) (w : Conn σ) (brokerID id : String)
    (hb : brokerID ≠ "") (hi : id ≠ "") :
    (findUserByID c w brokerID id).2
      = { st := (c.DescribeUser w.st ⟨some brokerID, some id⟩).2,
          calls := w.calls ++ [Call.DescribeUser ⟨some brokerID, some id⟩] } ∧
    (∀ e, (c.DescribeUser w.st ⟨some brokerID, some id⟩).1.2 = some e →
      e.isNotFoundException = true →
      (findUserByID c w brokerID id).1
        = (none, some (GoError.retryNotFoundError "" (some e) (some ⟨some brokerID, some id⟩)))) ∧
    (∀ e, (c.DescribeUser w.st ⟨some brokerID, some id⟩).1.2 = some e →
      e.isNotFoundException = false →
      (findUserByID c w brokerID id).1 = (none, some (GoError.remote e)) ∧
      (GoError.remote e).isRetryNotFoundError = false) ∧
    (∀ out, (c.DescribeUser w.st ⟨some brokerID, some id⟩).1.2 = none →
      (c.DescribeUser w.st ⟨some brokerID, some id⟩).1.1 = some out →
      (findUserByID c w brokerID id).1 = (some out, none)) ∧
    (∀ out, (findUserByID c w brokerID id).1.1 = some out →
      (c.DescribeUser w.st ⟨some brokerID, some id⟩).1.2 = none ∧
      (c.DescribeUser w.st ⟨some brokerID, some id⟩).1.1 = some out ∧
      (findUserByID c w brokerID id).1.2 = none) := by
  generalize hr : c.DescribeUser w.st ⟨some brokerID, some id⟩ = r
  obtain ⟨⟨output, err⟩, st⟩ := r
  have hf : findUserByID c w brokerID id
      = (if errsIsANotFoundException err then
          ((none, some (GoError.retryNotFoundError "" err (some ⟨some brokerID, some id⟩))),
            ({ st := st, calls := w.calls ++ [Call.DescribeUser ⟨some brokerID, some id⟩] } : Conn σ))
        else
          match err with
          | some e => ((none, some (GoError.remote e)),
              { st := st, calls := w.calls ++ [Call.DescribeUser ⟨some brokerID, some id⟩] })
          | none =>
            match output with
            | none => ((none, some (GoError.emptyResultError ⟨some brokerID, some id⟩)),
                { st := st, calls := w.calls ++ [Call.DescribeUser ⟨some brokerID, some id⟩] })
            | some out => ((some out, none),
                { st := st, calls := w.calls ++ [Call.DescribeUser ⟨some brokerID, some id⟩] })) := by
    simp [findUserByID, hb, hi, connDescribeUser, hr]
  rw [hf]
  cases err with
  | none =>
    cases output with
    | none => simp [errsIsANotFoundException]
    | some out => simp [errsIsANotFoundException]
  | some e =>
    cases hn : e.isNotFoundException <;>
      simp [errsIsANotFoundException, hn, GoError.isRetryNotFoundError]

/-- The finder of C4 against a stub whose first read reports `NotFoundException`. -/
theorem findUserByID_classifies_witness :
    (("b-1234" : String) ≠ "" ∧ ("testuser" : String) ≠ "") ∧
    (findUserByID (stabilizingClient 1 sampleOutput) ⟨0, []⟩ "b-1234" "testuser").2
      = { st := 1, calls := [Call.DescribeUser ⟨some "b-1234", some "testuser"⟩] } :=
  ⟨by decide,
    (findUserByID_classifies (stabilizingClient 1 sampleOutput) ⟨0, []⟩ "b-1234" "testuser"
      (by decide) (by decide)).1⟩

/-! ## Read -/

/-- C5: for every stored state and every response without a prior error, `Read`
calls the finder once (the connection after `Read` is the connection after that
one finder call) and: when the finder result is NotFound the resource is removed
from the state and no diagnostic is added; when the finder returns any other
error exactly one error diagnostic, carrying that error, is added and the state
of the response is left as it was; when the finder succeeds the state becomes
the refreshed state; and the state becomes something else than before only by
removal or on success of the finder. -/
theorem read_outcomes {σ : Type} (fx : Flex) (c : Client σ) (w : Conn σ)
    (state : resourceUserData) (response : Response)
    (hresp : HasError response.Diagnostics = false) :
    (resourceUser.Read fx c w state response).2
      = (findUserByID c w state.BrokerID.ValueString state.ID.ValueString).2 ∧
    (tfresourceNotFound (findUserByID c w state.BrokerID.ValueString state.ID.ValueString).1.2
        = true →
      (resourceUser.Read fx c w state response).1.State = none ∧
      (resourceUser.Read fx c w state response).1.Diagnostics = response.Diagnostics) ∧
    (∀ e, (findUserByID c w state.BrokerID.ValueString state.ID.ValueString).1.2 = some e →
      tfresourceNotFound (some e) = false →
      (resourceUser.Read fx c w state response).1.State = response.State ∧
      (resourceUser.Read fx c w state response).1.Diagnostics
        = response.Diagnostics ++ [Diagnostic.diagErrorFramework ErrAction.reading
            ResourceNameUser (sprintfSlash state.BrokerID.ValueString state.ID.ValueString) e] ∧
      Diagnostic.isError (Diagnostic.diagErrorFramework ErrAction.reading
            ResourceNameUser (sprintfSlash state.BrokerID.ValueString state.ID.ValueString) e)
        = true) ∧
    ((findUserByID c w state.BrokerID.ValueString state.ID.ValueString).1.2 = none →
      (resourceUser.Read fx c w state response).1.State
        = some (state.refreshFromOutput fx
            (findUserByID c w state.BrokerID.ValueString state.ID.ValueString).1.1) ∧
      (resourceUser.Read fx c w state response).1.Diagnostics = response.Diagnostics) ∧
    ((findUserByID c w state.BrokerID.ValueString state.ID.ValueString).1.2 ≠ none →
      (resourceUser.Read fx c w state response).1.State = none ∨
      (resourceUser.Read fx c w state response).1.State = response.State) := by
  generalize hf : findUserByID c w state.BrokerID.ValueString state.ID.ValueString = f
  obtain ⟨⟨output, err⟩, w2⟩ := f
  simp only [resourceUser.Read, tfsdkGet, Response.Append, List.append_nil, hresp, hf,
    tfsdkRemoveResource, tfsdkSet]
  cases err with
  | none => simp [tfresourceNotFound]
  | some e =>
    cases hn : tfresourceNotFound (some e) <;>
      simp [hn, Diagnostic.isError]

/-- The read of C5 on a user that the remote no longer has: the resource is
removed from the state without a diagnostic. -/
theorem read_outcomes_witness :
    HasError (⟨some sampleData, []⟩ : Response).Diagnostics = false ∧
    (resourceUser.Read sampleFlex (singleUserClient sampleOutput) ⟨false, []⟩ sampleData
        ⟨some sampleData, []⟩).1.State = none :=
  ⟨by decide,
    ((read_outcomes sampleFlex (singleUserClient sampleOutput) ⟨false, []⟩ sampleData
      ⟨some sampleData, []⟩ (by decide)).2.1 (by decide)).1⟩

/-! ## Update -/

theorem tfString_equal_self (a : TfString) : a.Equal a = true := by
  cases a <;> simp [TfString.Equal]

theorem tfBool_equal_self (a : TfBool) : a.Equal a = true := by
  cases a <;> simp [TfBool.Equal]

theorem elemsEqual_self (l : List TfString) : elemsEqual l l = true := by
  induction l with
  | nil => rfl
  | cons a as ih => simp [elemsEqual, tfString_equal_self, ih]

theorem tfList_equal_self (a : TfList) : a.Equal a = true := by
  cases a <;> simp [TfList.Equal, elemsEqual_self]

/-- C6: `userHasChanges d d` is false for every `d`; and for every plan/state
pair on which `userHasChanges` is false, `Update` leaves the connection exactly
as it was (no remote call, so `UpdateUser` is never invoked) and adds no
diagnostic; when the response carried no prior error the plan is stored as the
new state. -/
theorem update_noop {σ : Type} (fx : Flex) (c : Client σ) (w : Conn σ) :
    (∀ d : resourceUserData, userHasChanges d d = false) ∧
    (∀ (state plan : resourceUserData) (response : Response),
      userHasChanges plan state = false →
      (resourceUser.Update fx c w state plan response).2 = w ∧
      (resourceUser.Update fx c w state plan response).1.Diagnostics = response.Diagnostics ∧
      (HasError response.Diagnostics = false →
        (resourceUser.Update fx c w state plan response).1.State = some plan)) := by
  refine ⟨fun d => ?_, fun state plan response h => ?_⟩
  · simp [userHasChanges, tfString_equal_self, tfBool_equal_self, tfList_equal_self]
  · cases hresp : HasError response.Diagnostics <;>
      simp [resourceUser.Update, tfsdkGet, tfsdkSet, Response.Append, hresp, h]

/-- The no-op update of C6 at a plan equal to the state, against a stub that
logs every call. -/
theorem update_noop_witness :
    userHasChanges sampleData sampleData = false ∧
    (resourceUser.Update sampleFlex (singleUserClient sampleOutput) ⟨true, []⟩ sampleData
        sampleData ⟨some sampleData, []⟩).2 = ⟨true, []⟩ :=
  ⟨by decide,
    ((update_noop sampleFlex (singleUserClient sampleOutput) ⟨true, []⟩).2 sampleData
      sampleData ⟨some sampleData, []⟩ (by decide)).1⟩

/-- C7 fails as stated: with a plan whose `broker_id` differs from the state,
`Update` reports nothing and stores the plan as the new state; and when the
password differs as well it does call the remote `UpdateUser`. -/
theorem update_forceReplace_counterexample :
    movedBrokerPlan.BrokerID ≠ sampleData.BrokerID ∧
    (resourceUser.Update sampleFlex (singleUserClient sampleOutput) ⟨true, []⟩ sampleData
        movedBrokerPlan ⟨some sampleData, []⟩).1 = ⟨some movedBrokerPlan, []⟩ ∧
    movedBrokerNewPasswordPlan.BrokerID ≠ sampleData.BrokerID ∧
    (resourceUser.Update sampleFlex (singleUserClient sampleOutput) ⟨true, []⟩ sampleData
        movedBrokerNewPasswordPlan ⟨some sampleData, []⟩)
      = (⟨some movedBrokerNewPasswordPlan, []⟩,
          ⟨true, [Call.UpdateUser (updateUserInput sampleFlex movedBrokerNewPasswordPlan)]⟩) := by
  decide

/-- C7 as amended: for every plan/state pair in which `broker_id` or `username`
differs, and a response without a prior error, `Update` makes no check of the
immutable attributes. When `userHasChanges` is false it issues no remote call,
adds no diagnostic and stores the plan. When `userHasChanges` is true it issues
exactly one `UpdateUser` call built from the plan; if that call succeeds the
plan is stored without a diagnostic, and if it fails the only diagnostic added
is the updating error carrying the remote error and the state is left as it
was. -/
theorem update_ignores_immutable {σ : Type} (fx : Flex) (c : Client σ) (w : Conn σ)
    (state plan : resourceUserData) (response : Response)
    (_himm : plan.BrokerID ≠ state.BrokerID ∨ plan.Username ≠ state.Username)
    (hresp : HasError response.Diagnostics = false) :
    (userHasChanges plan state = false →
      resourceUser.Update fx c w state plan response
        = (⟨some plan, response.Diagnostics⟩, w)) ∧
    (userHasChanges plan state = true →
      (resourceUser.Update fx c w state plan response).2
        = { st := (c.UpdateUser w.st (updateUserInput fx plan)).2,
            calls := w.calls ++ [Call.UpdateUser (updateUserInput fx plan)] } ∧
      ((c.UpdateUser w.st (updateUserInput fx plan)).1 = none →
        (resourceUser.Update fx c w state plan response).1
          = ⟨some plan, response.Diagnostics⟩) ∧
      (∀ e, (c.UpdateUser w.st (updateUserInput fx plan)).1 = some e →
        (resourceUser.Update fx c w state plan response).1
          = ⟨response.State, response.Diagnostics ++
              [Diagnostic.diagErrorFramework ErrAction.updating ResourceNameUser
                (sprintfSlash state.BrokerID.ValueString state.ID.ValueString)
                (GoError.remote e)]⟩)) := by
  constructor
  · intro h
    simp [resourceUser.Update, tfsdkGet, tfsdkSet, Response.Append, hresp, h]
  · intro h
    generalize hr : c.UpdateUser w.st (updateUserInput fx plan) = r
    obtain ⟨err, st⟩ := r
    cases err <;>
      simp [resourceUser.Update, tfsdkGet, tfsdkSet, Response.Append, hresp, h,
        connUpdateUser, hr]

/-- The amended C7 at a plan that moves the user to another broker. -/
theorem update_ignores_immutable_witness :
    ((movedBrokerPlan.BrokerID ≠ sampleData.BrokerID ∨
        movedBrokerPlan.Username ≠ sampleData.Username) ∧
      HasError (⟨some sampleData, []⟩ : Response).Diagnostics = false ∧
      userHasChanges movedBrokerPlan sampleData = false) ∧
    resourceUser.Update sampleFlex (singleUserClient sampleOutput) ⟨true, []⟩ sampleData
        movedBrokerPlan ⟨some sampleData, []⟩
      = (⟨some movedBrokerPlan, []⟩, ⟨true, []⟩) :=
  ⟨by decide,
    (update_ignores_immutable sampleFlex (singleUserClient sampleOutput) ⟨true, []⟩ sampleData
      movedBrokerPlan ⟨some sampleData, []⟩ (by decide) (by decide)).1 (by decide)⟩

/-! ## Delete -/

/-- C8 fails as stated: against a remote that holds the user, the first `Delete`
succeeds, and the second `Delete` on the same identifier, which the remote
answers with `NotFoundException`, adds an error diagnostic. -/
theorem delete_twice_counterexample :
    (resourceUser.Delete sampleFlex (singleUserClient sampleOutput) ⟨true, []⟩ sampleData
        ⟨some sampleData, []⟩).1.Diagnostics = [] ∧
    (resourceUser.Delete sampleFlex (singleUserClient sampleOutput)
        (resourceUser.Delete sampleFlex (singleUserClient sampleOutput) ⟨true, []⟩ sampleData
          ⟨some sampleData, []⟩).2 sampleData ⟨some sampleData, []⟩).1.Diagnostics
      = [Diagnostic.diagErrorFramework ErrAction.deleting ResourceNameUser "b-1234/testuser"
          (GoError.remote (RemoteError.notFoundException "user not found"))] := by
  decide

/-- C8 as amended: for every stored state and response without a prior error,
`Delete` issues exactly one `DeleteUser` call built from the state; it adds no
diagnostic exactly when the remote answers without an error, and any remote
error, a `NotFoundException` included, is reported as one deleting error
diagnostic carrying that error. The state of the response is not touched. -/
theorem delete_outcomes {σ : Type} (fx : Flex) (c : Client σ) (w : Conn σ)
    (state : resourceUserData) (response : Response)
    (hresp : HasError response.Diagnostics = false) :
    (resourceUser.Delete fx c w state response).2
      = { st := (c.DeleteUser w.st (deleteUserInput fx state)).2,
          calls := w.calls ++ [Call.DeleteUser (deleteUserInput fx state)] } ∧
    (resourceUser.Delete fx c w state response).1.State = response.State ∧
    ((c.DeleteUser w.st (deleteUserInput fx state)).1 = none ↔
      (resourceUser.Delete fx c w state response).1.Diagnostics = response.Diagnostics) ∧
    (∀ e, (c.DeleteUser w.st (deleteUserInput fx state)).1 = some e →
      (resourceUser.Delete fx c w state response).1.Diagnostics
        = response.Diagnostics ++
            [Diagnostic.diagErrorFramework ErrAction.deleting ResourceNameUser
              (sprintfSlash state.BrokerID.ValueString state.ID.ValueString)
              (GoError.remote e)]) := by
  generalize hr : c.DeleteUser w.st (deleteUserInput fx state) = r
  obtain ⟨err, st⟩ := r
  cases err <;>
    simp [resourceUser.Delete, tfsdkGet, Response.Append, hresp, connDeleteUser, hr]

/-- The amended C8 on a user the remote no longer has. -/
theorem delete_outcomes_witness :
    HasError (⟨some sampleData, []⟩ : Response).Diagnostics = false ∧
    (resourceUser.Delete sampleFlex (singleUserClient sampleOutput) ⟨false, []⟩ sampleData
        ⟨some sampleData, []⟩).2.calls
      = [Call.DeleteUser (deleteUserInput sampleFlex sampleData)] :=
  ⟨by decide,
    congrArg Conn.calls
      (delete_outcomes sampleFlex (singleUserClient sampleOutput) ⟨false, []⟩ sampleData
        ⟨some sampleData, []⟩ (by decide)).1⟩

/-! ## Create -/

/-- C9 fails as stated: when the remote reports NotFound on the first read and
Found on the second (N = 1), `Create` reads once, adds a creating error carrying
the NotFound error, and stores no state. -/
theorem create_stabilize_counterexample :
    resourceUser.Create sampleFlex (stabilizingClient 1 sampleOutput) ⟨0, []⟩ sampleData
        ⟨none, []⟩
      = (⟨none, [Diagnostic.diagErrorFramework ErrAction.creating ResourceNameUser
            "b-1234/testuser"
            (GoError.retryNotFoundError ""
              (some (RemoteError.notFoundException "user not found"))
              (some ⟨some "b-1234", some "testuser"⟩))]⟩,
          ⟨1, [Call.CreateUser (createUserInput sampleFlex sampleData),
                Call.DescribeUser ⟨some "b-1234", some "testuser"⟩]⟩) := by
  decide

/-- C9 as amended: for every N, every plan with a non-empty broker ID and
username and every response without a prior error, against a remote whose
create succeeds and whose reads report NotFound for the first N calls and Found
afterwards, `Create` issues the create call followed by exactly one read. For
N = 0 it ends with no diagnostic added and with the state refreshed from the
found output, whose `id` is the returned username. For N ≥ 1 it adds one
creating error carrying the NotFound error and leaves the state as it was. -/
theorem create_reads_once (fx : Flex) (N : Nat) (out : DescribeUserOutput)
    (plan : resourceUserData) (calls : List Call) (response : Response)
    (hresp : HasError response.Diagnostics = false)
    (hb : plan.BrokerID.ValueString ≠ "") (hu : plan.Username.ValueString ≠ "") :
    (resourceUser.Create fx (stabilizingClient N out) ⟨0, calls⟩ plan response).2
      = ⟨1, calls ++ [Call.CreateUser (createUserInput fx plan),
          Call.DescribeUser ⟨some plan.BrokerID.ValueString, some plan.Username.ValueString⟩]⟩ ∧
    (N = 0 →
      (resourceUser.Create fx (stabilizingClient N out) ⟨0, calls⟩ plan response).1
        = ⟨some (plan.refreshFromOutput fx (some out)), response.Diagnostics⟩ ∧
      (plan.refreshFromOutput fx (some out)).ID = fx.StringToFramework out.Username ∧
      (plan.refreshFromOutput fx (some out)).Username = fx.StringToFramework out.Username) ∧
    (1 ≤ N →
      (resourceUser.Create fx (stabilizingClient N out) ⟨0, calls⟩ plan response).1
        = ⟨response.State, response.Diagnostics ++
            [Diagnostic.diagErrorFramework ErrAction.creating ResourceNameUser
              (sprintfSlash plan.BrokerID.ValueString plan.Username.ValueString)
              (GoError.retryNotFoundError ""
                (some (RemoteError.notFoundException "user not found"))
                (some ⟨some plan.BrokerID.ValueString,
                  some plan.Username.ValueString⟩))]⟩) := by
  rcases Nat.eq_zero_or_pos N with h0 | hpos
  · subst h0
    simp [resourceUser.Create, tfsdkGet, tfsdkSet, Response.Append, hresp, connCreateUser,
      findUserByID, hb, hu, connDescribeUser, stabilizingClient, errsIsANotFoundException,
      resourceUserData.refreshFromOutput]
  · have hN : ¬ (N = 0) := by omega
    have h1 : 1 ≤ N := hpos
    simp [resourceUser.Create, tfsdkGet, Response.Append, hresp, connCreateUser,
      findUserByID, hb, hu, connDescribeUser, stabilizingClient, errsIsANotFoundException,
      RemoteError.isNotFoundException, hN, h1, hpos]

/-- The amended C9 at N = 0: the first read finds the user and the state is
stored from it. -/
theorem create_reads_once_witness :
    (HasError (⟨none, []⟩ : Response).Diagnostics = false ∧
      sampleData.BrokerID.ValueString ≠ "" ∧ sampleData.Username.ValueString ≠ "") ∧
    (resourceUser.Create sampleFlex (stabilizingClient 0 sampleOutput) ⟨0, []⟩ sampleData
        ⟨none, []⟩).1
      = ⟨some (sampleData.refreshFromOutput sampleFlex (some sampleOutput)), []⟩ :=
  ⟨by decide,
    ((create_reads_once sampleFlex 0 sampleOutput sampleData [] ⟨none, []⟩ (by decide)
      (by decide) (by decide)).2.1 rfl).1⟩

/-! ## Translator round trip -/

/-- C10: for every plan `d` whose `broker_id`, `username`, `console_access`,
`groups` and `replication_user` are known, and conversions that round-trip on
known values, refreshing `d` from a remote answer that echoes the fields of the
create request built from `d` gives a state equal to `d` on those five
attributes, with `id` equal to `username` and the password as in `d`. -/
theorem refresh_roundtrip (fx : Flex) (d : resourceUserData) (hfx : fx.RoundTrips)
    (hbroker : d.BrokerID.isKnown = true) (huser : d.Username.isKnown = true)
    (hconsole : d.ConsoleAccess.isKnown = true) (hgroups : d.Groups.isKnown = true)
    (hrepl : d.ReplicationUser.isKnown = true) :
    (d.refreshFromOutput fx (some (echoOutput (createUserInput fx d)))).BrokerID
      = d.BrokerID ∧
    (d.refreshFromOutput fx (some (echoOutput (createUserInput fx d)))).Username
      = d.Username ∧
    (d.refreshFromOutput fx (some (echoOutput (createUserInput fx d)))).ConsoleAccess
      = d.ConsoleAccess ∧
    (d.refreshFromOutput fx (some (echoOutput (createUserInput fx d)))).Groups
      = d.Groups ∧
    (d.refreshFromOutput fx (some (echoOutput (createUserInput fx d)))).ReplicationUser
      = d.ReplicationUser ∧
    (d.refreshFromOutput fx (some (echoOutput (createUserInput fx d)))).ID
      = d.Username ∧
    (d.refreshFromOutput fx (some (echoOutput (createUserInput fx d)))).Password
      = d.Password := by
  obtain ⟨hS, hB, hL⟩ := hfx
  simp [resourceUserData.refreshFromOutput, echoOutput, createUserInput,
    hS _ hbroker, hS _ huser, hB _ hconsole, hB _ hrepl, hL _ hgroups]

theorem knownValues_roundtrip (elems : List TfString)
    (h : elems.all TfString.isKnown = true) :
    knownValues elems = some (elems.map TfString.ValueString) ∧
    (elems.map TfString.ValueString).map TfString.known = elems := by
  induction elems with
  | nil => exact ⟨rfl, rfl⟩
  | cons a as ih =>
    cases a with
    | known v =>
      have has : as.all TfString.isKnown = true := by
        simpa [TfString.isKnown] using h
      obtain ⟨h1, h2⟩ := ih has
      exact ⟨by simp [knownValues, h1, TfString.ValueString],
        by simp [TfString.ValueString, h2]⟩
    | null => simp [TfString.isKnown] at h
    | unknown => simp [TfString.isKnown] at h

theorem sampleFlex_roundTrips : sampleFlex.RoundTrips := by
  refine ⟨fun v hv => ?_, fun v hv => ?_, fun v hv => ?_⟩
  · cases v <;> simp_all [TfString.isKnown, sampleFlex]
  · cases v <;> simp_all [TfBool.isKnown, sampleFlex]
  · cases v with
    | known elems =>
      obtain ⟨h1, h2⟩ := knownValues_roundtrip elems hv
      simp [sampleFlex, h1, h2]
    | null => simp [TfList.isKnown] at hv
    | unknown => simp [TfList.isKnown] at hv

/-- The round trip of C10 at a plan with two groups and the sample
conversions. -/
theorem refresh_roundtrip_witness :
    (samplePlan.BrokerID.isKnown = true ∧ samplePlan.Username.isKnown = true ∧
      samplePlan.ConsoleAccess.isKnown = true ∧ samplePlan.Groups.isKnown = true ∧
      samplePlan.ReplicationUser.isKnown = true) ∧
    (samplePlan.refreshFromOutput sampleFlex
        (some (echoOutput (createUserInput sampleFlex samplePlan)))).Groups
      = samplePlan.Groups :=
  ⟨by decide,
    (refresh_roundtrip sampleFlex samplePlan sampleFlex_roundTrips (by decide) (by decide)
      (by decide) (by decide) (by decide)).2.2.2.1⟩

end MQ
